import Mathlib

/-!
# Verification of the page-range expression parser

Shallow embedding of `src/util/PageRange.cpp` (`PageRange::parse`): a
parser turning a user-entered string such as `"1, 2-, -3, 4-5, -"` and a
page count into a list of 0-based inclusive page intervals, or an error.

The embedding follows the source line by line:
* the tokenizer (`std::sregex_token_iterator` over the separator class
  `[,;:]` in split mode) becomes `tokenize`;
* the five shape regexes (`singlePage`, `rightOpenRange`, `leftOpenRange`,
  `pageRange`, `bothOpenRange`) become the `match*` functions below.  All
  five regexes are built from the pairwise-disjoint character classes
  `\s`, `\d` and the literal `-`, so full-string matching is
  deterministic and a maximal-munch scanner (`takeWhile` / `dropWhile`)
  recognises exactly the same strings and captures the same groups;
* `std::from_chars` on a digit group becomes `fromChars`: the exact
  decimal value when it is representable in `size_t`, and — as in the
  source, where the result of `from_chars` is not checked — the
  destination left unmodified on overflow;
* the validation ladder (upper bound, ordering, zero) becomes
  `validateEntry`, and the exception taxonomy becomes `ParseError`
  (`std::logic_error` for a zero page count; the four distinct
  `std::invalid_argument` throw sites in source order).

Machine integers: `size_t` values are modelled as `Nat`; the only place
the 64-bit width matters is `fromChars`, which cuts off at
`sizeMax = 2^64 - 1`.
-/

/-- Whitespace, the ECMAScript `\s` class as it applies to `char`:
space, tab, line feed, vertical tab, form feed, carriage return. -/
def isWs (c : Char) : Bool :=
  decide (c = ' ' ∨ c = '\t' ∨ c = '\n' ∨ c = '\x0b' ∨ c = '\x0c' ∨ c = '\r')

/-- Decimal digits, the ECMAScript `\d` class: `'0'` (code 48) to `'9'`
(code 57). -/
def isDigit (c : Char) : Bool :=
  decide (48 ≤ c.toNat ∧ c.toNat ≤ 57)

/-- The separator class `[,;:]` of the tokenizing regex. -/
def isSep (c : Char) : Bool :=
  decide (c = ',' ∨ c = ';' ∨ c = ':')

/-- Decimal value of a digit string (the value `std::from_chars` computes
before any representability concern). -/
def valDigits (ds : List Char) : Nat :=
  ds.foldl (fun a c => 10 * a + (c.toNat - 48)) 0

/-- `SIZE_MAX` on the 64-bit targets the source is built for. -/
def sizeMax : Nat := 2 ^ 64 - 1

/-- `std::from_chars` into a `size_t` destination holding `dflt`, applied
to an all-digit token: on success the exact decimal value is stored; on
overflow (`errc::result_out_of_range`) the destination is left
unmodified.  The source does not check the result. -/
def fromChars (ds : List Char) (dflt : Nat) : Nat :=
  if valDigits ds ≤ sizeMax then valDigits ds else dflt

/-- A page interval, `first` and `last` being `size_t` fields. -/
structure PageRangeEntry where
  first : Nat
  last : Nat
deriving DecidableEq, Repr

/-- Modelled from the spec: the header `util/PageRange.h` declaring
`PageRangeEntry` is not part of the excerpt; the spec (§3) describes it
as a value type with two non-negative integer fields and fixes no
initial value.  The default-constructed `PageRangeEntry entry;` of the
parse loop is modelled with zero-initialized fields. -/
def entryInit : PageRangeEntry := { first := 0, last := 0 }

/-- The error taxonomy (spec §7), one constructor per throw site of the
source: `std::logic_error` for `pageCount == 0`
(`invalidConfiguration`), and the four `std::invalid_argument` messages
"invalid page range" (`invalidRange`), "larger than maximum count"
(`outOfRange`), "increasing order" (`invalidOrder`) and "page numbers
start with 1" (`invalidPageNumber`). -/
inductive ParseError where
  | invalidConfiguration
  | invalidRange
  | outOfRange
  | invalidOrder
  | invalidPageNumber
deriving DecidableEq, Repr

/-- The regex `\s*(\d+)\s*` under `regex_match`: returns the captured
digit group on a full match. -/
def matchSinglePage (t : List Char) : Option (List Char) :=
  if ((t.dropWhile isWs).takeWhile isDigit).isEmpty then none
  else if (((t.dropWhile isWs).dropWhile isDigit).dropWhile isWs).isEmpty then
    some ((t.dropWhile isWs).takeWhile isDigit)
  else none

/-- The regex `\s*(\d+)\s*-\s*` under `regex_match`. -/
def matchRightOpen (t : List Char) : Option (List Char) :=
  if ((t.dropWhile isWs).takeWhile isDigit).isEmpty then none
  else
    match ((t.dropWhile isWs).dropWhile isDigit).dropWhile isWs with
    | [] => none
    | c :: r2 =>
      if c = '-' then
        if (r2.dropWhile isWs).isEmpty then some ((t.dropWhile isWs).takeWhile isDigit)
        else none
      else none

/-- The regex `\s*-\s*(\d+)\s*` under `regex_match`. -/
def matchLeftOpen (t : List Char) : Option (List Char) :=
  match t.dropWhile isWs with
  | [] => none
  | c :: r =>
    if c = '-' then
      if ((r.dropWhile isWs).takeWhile isDigit).isEmpty then none
      else if (((r.dropWhile isWs).dropWhile isDigit).dropWhile isWs).isEmpty then
        some ((r.dropWhile isWs).takeWhile isDigit)
      else none
    else none

/-- The regex `\s*(\d+)\s*-\s*(\d+)\s*` under `regex_match`: returns both
captured digit groups. -/
def matchPageRange (t : List Char) : Option (List Char × List Char) :=
  if ((t.dropWhile isWs).takeWhile isDigit).isEmpty then none
  else
    match ((t.dropWhile isWs).dropWhile isDigit).dropWhile isWs with
    | [] => none
    | c :: r2 =>
      if c = '-' then
        if ((r2.dropWhile isWs).takeWhile isDigit).isEmpty then none
        else if (((r2.dropWhile isWs).dropWhile isDigit).dropWhile isWs).isEmpty then
          some ((t.dropWhile isWs).takeWhile isDigit, (r2.dropWhile isWs).takeWhile isDigit)
        else none
      else none

/-- The regex `\s*-\s*` under `regex_match`. -/
def matchBothOpen (t : List Char) : Bool :=
  match t.dropWhile isWs with
  | [] => false
  | c :: r => if c = '-' then (r.dropWhile isWs).isEmpty else false

/-- The if-else ladder of the parse loop (source lines 70-94): try the
five shapes in source order and extract the raw 1-based entry, starting
from a default-constructed entry.  `none` corresponds to the final
`else` branch throwing "invalid page range". -/
def recognizeEntry (pageCount : Nat) (t : List Char) : Option PageRangeEntry :=
  match matchSinglePage t with
  | some ds =>
    let first := fromChars ds entryInit.first
    some { first := first, last := first }
  | none =>
    match matchRightOpen t with
    | some ds => some { first := fromChars ds entryInit.first, last := pageCount }
    | none =>
      match matchLeftOpen t with
      | some ds => some { first := 1, last := fromChars ds entryInit.last }
      | none =>
        match matchPageRange t with
        | some p => some { first := fromChars p.1 entryInit.first, last := fromChars p.2 entryInit.last }
        | none =>
          if matchBothOpen t then some { first := 1, last := pageCount } else none

/-- The validation ladder and normalization (source lines 95-109): upper
bound, then ordering, then zero check, then decrement both fields to the
0-based convention. -/
def validateEntry (pageCount : Nat) (e : PageRangeEntry) : Except ParseError PageRangeEntry :=
  if e.first > pageCount ∨ e.last > pageCount then .error .outOfRange
  else if e.last < e.first then .error .invalidOrder
  else if e.first = 0 then .error .invalidPageNumber
  else .ok { first := e.first - 1, last := e.last - 1 }

/-- One iteration of the parse loop on one token. -/
def processToken (pageCount : Nat) (t : List Char) : Except ParseError PageRangeEntry :=
  match recognizeEntry pageCount t with
  | none => .error .invalidRange
  | some e => validateEntry pageCount e

/-- Split a character list at every separator occurrence (each separator
is an independent split point); always returns at least one piece, and
empty pieces are kept. -/
def splitSeps : List Char → List (List Char)
  | [] => [[]]
  | c :: cs =>
    if isSep c then [] :: splitSeps cs
    else
      match splitSeps cs with
      | [] => [[c]]
      | p :: ps => (c :: p) :: ps

/-- The `std::sregex_token_iterator(.., separators, -1)` token sequence:
the pieces between separator matches, where the suffix after the last
separator is yielded only when non-empty, while an input with no
separator at all (the empty input included) is yielded whole.  Hence:
when at least one separator occurred (two or more pieces) a trailing
empty piece is dropped; every other empty piece is kept. -/
def tokenize (s : List Char) : List (List Char) :=
  let ps := splitSeps s
  if 2 ≤ ps.length ∧ ps.getLast? = some [] then ps.dropLast else ps

/-- The parse loop: process the tokens in order, appending each
normalized entry; the first error aborts the whole parse. -/
def parseTokens (pageCount : Nat) : List (List Char) → Except ParseError (List PageRangeEntry)
  | [] => .ok []
  | t :: ts =>
    match processToken pageCount t with
    | .error err => .error err
    | .ok e =>
      match parseTokens pageCount ts with
      | .error err => .error err
      | .ok es => .ok (e :: es)

namespace PageRange

/-- `PageRange::parse`: tokenize, reject a zero page count before any
token is examined, then run the loop. -/
def parse (s : String) (pageCount : Nat) : Except ParseError (List PageRangeEntry) :=
  if pageCount = 0 then .error .invalidConfiguration
  else parseTokens pageCount (tokenize s.data)

end PageRange

example : PageRange.parse "1, 2-, -3, 4-5, -" 10 =
    .ok [⟨0, 0⟩, ⟨1, 9⟩, ⟨0, 2⟩, ⟨3, 4⟩, ⟨0, 9⟩] := rfl

example : PageRange.parse "1," 10 = .ok [⟨0, 0⟩] := rfl
example : PageRange.parse ",1" 10 = .error .invalidRange := rfl
example : PageRange.parse "" 10 = .error .invalidRange := rfl
example : PageRange.parse "1-2-3" 10 = .error .invalidRange := rfl
example : PageRange.parse "abc" 10 = .error .invalidRange := rfl
example : PageRange.parse "0" 10 = .error .invalidPageNumber := rfl
example : PageRange.parse "11" 10 = .error .outOfRange := rfl
example : PageRange.parse "5-2" 10 = .error .invalidOrder := rfl
example : PageRange.parse "-0" 10 = .error .invalidOrder := rfl
example : PageRange.parse "0-42" 10 = .error .outOfRange := rfl
example : PageRange.parse "  1 , 2 -  , - 3 " 10 = .ok [⟨0, 0⟩, ⟨1, 9⟩, ⟨0, 2⟩] := rfl
example : PageRange.parse "abc" 0 = .error .invalidConfiguration := rfl

/-! ## Character class and scanning facts -/

theorem not_ws_of_digit {c : Char} (h : isDigit c = true) : isWs c = false := by
  cases hws : isWs c with
  | false => rfl
  | true =>
    exfalso
    simp only [isWs, decide_eq_true_eq] at hws
    rcases hws with rfl | rfl | rfl | rfl | rfl | rfl <;> exact absurd h (by decide)

theorem digit_ne_dash {c : Char} (h : isDigit c = true) : c ≠ '-' := by
  rintro rfl
  exact absurd h (by decide)

theorem dropWhile_ws_digits {ds r : List Char} (hne : ds ≠ [])
    (hdig : ∀ c ∈ ds, isDigit c = true) : (ds ++ r).dropWhile isWs = ds ++ r := by
  cases ds with
  | nil => exact absurd rfl hne
  | cons a l =>
    rw [List.cons_append,
      List.dropWhile_cons_of_neg (by simp [not_ws_of_digit (hdig a (List.mem_cons_self a l))])]

theorem takeWhile_digits_append {ds r : List Char} (hdig : ∀ c ∈ ds, isDigit c = true) :
    (ds ++ r).takeWhile isDigit = ds ++ r.takeWhile isDigit := by
  induction ds with
  | nil => rfl
  | cons a l ih =>
    rw [List.cons_append, List.takeWhile_cons_of_pos (hdig a (List.mem_cons_self a l)),
      ih (fun c hc => hdig c (List.mem_cons_of_mem a hc)), List.cons_append]

theorem dropWhile_digits_append {ds r : List Char} (hdig : ∀ c ∈ ds, isDigit c = true) :
    (ds ++ r).dropWhile isDigit = r.dropWhile isDigit := by
  induction ds with
  | nil => rfl
  | cons a l ih =>
    rw [List.cons_append, List.dropWhile_cons_of_pos (hdig a (List.mem_cons_self a l)),
      ih (fun c hc => hdig c (List.mem_cons_of_mem a hc))]

theorem dropWhile_ws_self_digits {ds : List Char} (hne : ds ≠ [])
    (hdig : ∀ c ∈ ds, isDigit c = true) : ds.dropWhile isWs = ds := by
  have h := dropWhile_ws_digits (r := []) hne hdig
  simpa using h

theorem takeWhile_digits_self {ds : List Char} (hdig : ∀ c ∈ ds, isDigit c = true) :
    ds.takeWhile isDigit = ds := by
  have h := takeWhile_digits_append (r := []) hdig
  simpa using h

theorem dropWhile_digits_self {ds : List Char} (hdig : ∀ c ∈ ds, isDigit c = true) :
    ds.dropWhile isDigit = [] := by
  have h := dropWhile_digits_append (r := []) hdig
  simpa using h

/-! ## Which shape each token form matches -/

theorem matchSinglePage_digits {ds : List Char} (hne : ds ≠ [])
    (hdig : ∀ c ∈ ds, isDigit c = true) : matchSinglePage ds = some ds := by
  unfold matchSinglePage
  rw [dropWhile_ws_self_digits hne hdig, takeWhile_digits_self hdig, dropWhile_digits_self hdig]
  cases ds with
  | nil => exact absurd rfl hne
  | cons a l => simp

theorem matchSinglePage_digits_dash {ds rest : List Char} (hne : ds ≠ [])
    (hdig : ∀ c ∈ ds, isDigit c = true) :
    matchSinglePage (ds ++ '-' :: rest) = none := by
  unfold matchSinglePage
  rw [dropWhile_ws_digits hne hdig, takeWhile_digits_append hdig, dropWhile_digits_append hdig,
    List.takeWhile_cons_of_neg (by decide), List.dropWhile_cons_of_neg (by decide),
    List.dropWhile_cons_of_neg (by decide)]
  cases ds with
  | nil => exact absurd rfl hne
  | cons a l => simp

theorem matchSinglePage_dash_digits {ds : List Char} :
    matchSinglePage ('-' :: ds) = none := by
  unfold matchSinglePage
  rw [List.dropWhile_cons_of_neg (by decide), List.takeWhile_cons_of_neg (by decide)]
  simp

theorem matchRightOpen_digits_dash {ds : List Char} (hne : ds ≠ [])
    (hdig : ∀ c ∈ ds, isDigit c = true) :
    matchRightOpen (ds ++ ['-']) = some ds := by
  unfold matchRightOpen
  rw [dropWhile_ws_digits hne hdig, takeWhile_digits_append hdig, dropWhile_digits_append hdig,
    List.takeWhile_cons_of_neg (by decide), List.dropWhile_cons_of_neg (by decide),
    List.dropWhile_cons_of_neg (by decide)]
  cases ds with
  | nil => exact absurd rfl hne
  | cons a l => simp

theorem matchRightOpen_digits_dash_digits {ds1 ds2 : List Char} (hne1 : ds1 ≠ [])
    (hdig1 : ∀ c ∈ ds1, isDigit c = true) (hne2 : ds2 ≠ [])
    (hdig2 : ∀ c ∈ ds2, isDigit c = true) :
    matchRightOpen (ds1 ++ '-' :: ds2) = none := by
  unfold matchRightOpen
  rw [dropWhile_ws_digits hne1 hdig1, takeWhile_digits_append hdig1,
    dropWhile_digits_append hdig1, List.takeWhile_cons_of_neg (by decide),
    List.dropWhile_cons_of_neg (by decide), List.dropWhile_cons_of_neg (by decide)]
  cases ds1 with
  | nil => exact absurd rfl hne1
  | cons a l =>
    cases ds2 with
    | nil => exact absurd rfl hne2
    | cons b m => simp [dropWhile_ws_self_digits hne2 hdig2]

theorem matchRightOpen_dash_digits {ds : List Char} :
    matchRightOpen ('-' :: ds) = none := by
  unfold matchRightOpen
  rw [List.dropWhile_cons_of_neg (by decide), List.takeWhile_cons_of_neg (by decide)]
  simp

theorem matchLeftOpen_dash_digits {ds : List Char} (hne : ds ≠ [])
    (hdig : ∀ c ∈ ds, isDigit c = true) :
    matchLeftOpen ('-' :: ds) = some ds := by
  unfold matchLeftOpen
  rw [List.dropWhile_cons_of_neg (by decide)]
  simp only [reduceIte]
  rw [dropWhile_ws_self_digits hne hdig, takeWhile_digits_self hdig, dropWhile_digits_self hdig]
  cases ds with
  | nil => exact absurd rfl hne
  | cons a l => simp

theorem matchLeftOpen_digits_head {ds r : List Char} (hne : ds ≠ [])
    (hdig : ∀ c ∈ ds, isDigit c = true) :
    matchLeftOpen (ds ++ r) = none := by
  cases ds with
  | nil => exact absurd rfl hne
  | cons a l =>
    unfold matchLeftOpen
    rw [List.cons_append,
      List.dropWhile_cons_of_neg (by simp [not_ws_of_digit (hdig a (List.mem_cons_self a l))])]
    simp only
    rw [if_neg (digit_ne_dash (hdig a (List.mem_cons_self a l)))]

theorem matchPageRange_digits_dash_digits {ds1 ds2 : List Char} (hne1 : ds1 ≠ [])
    (hdig1 : ∀ c ∈ ds1, isDigit c = true) (hne2 : ds2 ≠ [])
    (hdig2 : ∀ c ∈ ds2, isDigit c = true) :
    matchPageRange (ds1 ++ '-' :: ds2) = some (ds1, ds2) := by
  unfold matchPageRange
  rw [dropWhile_ws_digits hne1 hdig1, takeWhile_digits_append hdig1,
    dropWhile_digits_append hdig1, List.takeWhile_cons_of_neg (by decide),
    List.dropWhile_cons_of_neg (by decide), List.dropWhile_cons_of_neg (by decide)]
  cases ds1 with
  | nil => exact absurd rfl hne1
  | cons a l =>
    cases ds2 with
    | nil => exact absurd rfl hne2
    | cons b m =>
      simp [dropWhile_ws_self_digits hne2 hdig2, takeWhile_digits_self hdig2,
        dropWhile_digits_self hdig2]

/-! ## Per-shape behaviour of one loop iteration -/

theorem processToken_singlePage (pc : Nat) (ds : List Char) (hne : ds ≠ [])
    (hdig : ∀ c ∈ ds, isDigit c = true) (hmax : valDigits ds ≤ sizeMax)
    (h1 : 1 ≤ valDigits ds) (hpc : valDigits ds ≤ pc) :
    processToken pc ds = .ok ⟨valDigits ds - 1, valDigits ds - 1⟩ := by
  simp only [processToken, recognizeEntry, validateEntry, entryInit, fromChars,
    matchSinglePage_digits hne hdig]
  rw [if_pos hmax]
  rw [if_neg (by omega), if_neg (by omega), if_neg (by omega)]

theorem processToken_rightOpen (pc : Nat) (ds : List Char) (hne : ds ≠ [])
    (hdig : ∀ c ∈ ds, isDigit c = true) (hmax : valDigits ds ≤ sizeMax)
    (h1 : 1 ≤ valDigits ds) (hpc : valDigits ds ≤ pc) :
    processToken pc (ds ++ ['-']) = .ok ⟨valDigits ds - 1, pc - 1⟩ := by
  simp only [processToken, recognizeEntry, validateEntry, entryInit, fromChars,
    matchSinglePage_digits_dash hne hdig, matchRightOpen_digits_dash hne hdig]
  rw [if_pos hmax]
  rw [if_neg (by omega), if_neg (by omega), if_neg (by omega)]

theorem processToken_leftOpen (pc : Nat) (ds : List Char) (hne : ds ≠ [])
    (hdig : ∀ c ∈ ds, isDigit c = true) (hmax : valDigits ds ≤ sizeMax)
    (h1 : 1 ≤ valDigits ds) (hpc : valDigits ds ≤ pc) :
    processToken pc ('-' :: ds) = .ok ⟨0, valDigits ds - 1⟩ := by
  simp only [processToken, recognizeEntry, validateEntry, entryInit, fromChars,
    matchSinglePage_dash_digits, matchRightOpen_dash_digits,
    matchLeftOpen_dash_digits hne hdig]
  rw [if_pos hmax]
  rw [if_neg (by omega), if_neg (by omega), if_neg (by omega)]

theorem processToken_pageRange (pc : Nat) (ds1 ds2 : List Char) (hne1 : ds1 ≠ [])
    (hdig1 : ∀ c ∈ ds1, isDigit c = true) (hne2 : ds2 ≠ [])
    (hdig2 : ∀ c ∈ ds2, isDigit c = true) (hmax1 : valDigits ds1 ≤ sizeMax)
    (hmax2 : valDigits ds2 ≤ sizeMax) (h1 : 1 ≤ valDigits ds1)
    (hord : valDigits ds1 ≤ valDigits ds2) (hpc : valDigits ds2 ≤ pc) :
    processToken pc (ds1 ++ '-' :: ds2) = .ok ⟨valDigits ds1 - 1, valDigits ds2 - 1⟩ := by
  simp only [processToken, recognizeEntry, validateEntry, entryInit, fromChars,
    matchSinglePage_digits_dash hne1 hdig1,
    matchRightOpen_digits_dash_digits hne1 hdig1 hne2 hdig2,
    matchLeftOpen_digits_head hne1 hdig1,
    matchPageRange_digits_dash_digits hne1 hdig1 hne2 hdig2]
  rw [if_pos hmax1, if_pos hmax2]
  rw [if_neg (by omega), if_neg (by omega), if_neg (by omega)]

theorem processToken_bothOpen (pc : Nat) (hpc : 1 ≤ pc) :
    processToken pc ['-'] = .ok ⟨0, pc - 1⟩ := by
  have h : recognizeEntry pc ['-'] = some { first := 1, last := pc } := rfl
  simp only [processToken, h, validateEntry]
  rw [if_neg (by omega), if_neg (by omega), if_neg (by omega)]

/-! ## Validation and loop facts -/

theorem validateEntry_ok_bounds {pc : Nat} {e e' : PageRangeEntry}
    (h : validateEntry pc e = .ok e') : e'.first ≤ e'.last ∧ e'.last < pc := by
  unfold validateEntry at h
  split at h
  · exact absurd h (by simp)
  · split at h
    · exact absurd h (by simp)
    · split at h
      · exact absurd h (by simp)
      · rename_i hub hord hzero
        simp only [Except.ok.injEq] at h
        subst h
        show e.first - 1 ≤ e.last - 1 ∧ e.last - 1 < pc
        omega

theorem processToken_ok_bounds {pc : Nat} {t : List Char} {e : PageRangeEntry}
    (h : processToken pc t = .ok e) : e.first ≤ e.last ∧ e.last < pc := by
  unfold processToken at h
  cases hr : recognizeEntry pc t with
  | none => rw [hr] at h; cases h
  | some e0 => rw [hr] at h; exact validateEntry_ok_bounds h

theorem parseTokens_ok_forall {pc : Nat} {ts : List (List Char)} {es : List PageRangeEntry}
    (h : parseTokens pc ts = .ok es) :
    List.Forall₂ (fun t e => processToken pc t = .ok e) ts es := by
  induction ts generalizing es with
  | nil =>
    unfold parseTokens at h
    simp only [Except.ok.injEq] at h
    subst h
    exact List.Forall₂.nil
  | cons t ts ih =>
    unfold parseTokens at h
    cases hp : processToken pc t with
    | error err => rw [hp] at h; cases h
    | ok e =>
      rw [hp] at h
      cases hr : parseTokens pc ts with
      | error err => rw [hr] at h; cases h
      | ok es' =>
        rw [hr] at h
        simp only [Except.ok.injEq] at h
        subst h
        exact List.Forall₂.cons hp (ih hr)

theorem parseTokens_cons_error {pc : Nat} {t : List Char} {ts : List (List Char)}
    {err : ParseError} (h : processToken pc t = .error err) :
    parseTokens pc (t :: ts) = .error err := by
  unfold parseTokens
  rw [h]

theorem processToken_ne_config (pc : Nat) (t : List Char) :
    processToken pc t ≠ .error .invalidConfiguration := by
  unfold processToken
  cases recognizeEntry pc t with
  | none => simp
  | some e =>
    show validateEntry pc e ≠ .error .invalidConfiguration
    unfold validateEntry
    split
    · simp
    · split
      · simp
      · split
        · simp
        · simp

theorem parseTokens_ne_config (pc : Nat) (ts : List (List Char)) :
    parseTokens pc ts ≠ .error .invalidConfiguration := by
  induction ts with
  | nil => simp [parseTokens]
  | cons t ts ih =>
    unfold parseTokens
    cases hp : processToken pc t with
    | error err =>
      have hne := processToken_ne_config pc t
      rw [hp] at hne
      simpa using hne
    | ok e =>
      cases hr : parseTokens pc ts with
      | error err =>
        rw [hr] at ih
        simpa using ih
      | ok es => simp

theorem parseTokens_ok_mem_bounds {pc : Nat} {ts : List (List Char)}
    {es : List PageRangeEntry} (h : parseTokens pc ts = .ok es) :
    ∀ e ∈ es, e.first ≤ e.last ∧ e.last < pc := by
  induction ts generalizing es with
  | nil =>
    unfold parseTokens at h
    simp only [Except.ok.injEq] at h
    subst h
    simp
  | cons t ts ih =>
    unfold parseTokens at h
    cases hp : processToken pc t with
    | error err => rw [hp] at h; cases h
    | ok e0 =>
      rw [hp] at h
      cases hr : parseTokens pc ts with
      | error err => rw [hr] at h; cases h
      | ok es' =>
        rw [hr] at h
        simp only [Except.ok.injEq] at h
        subst h
        intro e he
        rcases List.mem_cons.mp he with rfl | he'
        · exact processToken_ok_bounds hp
        · exact ih hr e he'

/-! ## Claims -/

/-- C1: for every input string and every pageCount ≥ 1 on which `parse`
succeeds, every entry of the returned sequence satisfies
`first ≤ last < pageCount` (0-based inclusive; `0 ≤ first` is automatic
for `Nat`). -/
theorem C1_parse_ok_entries_bounded (s : String) (pc : Nat)
    (entries : List PageRangeEntry) (hpc : 1 ≤ pc)
    (h : PageRange.parse s pc = .ok entries) :
    ∀ e ∈ entries, e.first ≤ e.last ∧ e.last < pc := by
  unfold PageRange.parse at h
  rw [if_neg (by omega)] at h
  exact parseTokens_ok_mem_bounds h

/-- Witness for C1: concrete consequence at `parse "1,2-3" 5`. -/
theorem C1_witness :
    (PageRangeEntry.mk 1 2).first ≤ (PageRangeEntry.mk 1 2).last ∧
      (PageRangeEntry.mk 1 2).last < 5 :=
  C1_parse_ok_entries_bounded "1,2-3" 5 [⟨0, 0⟩, ⟨1, 2⟩] (by omega) rfl ⟨1, 2⟩ (by decide)

/-- C2: each of the five sub-expression shapes produces exactly the
specified entry — a digit token `n` gives `(n-1, n-1)`; `n-` gives
`(n-1, pageCount-1)`; `-m` gives `(0, m-1)`; `n-m` gives `(n-1, m-1)`;
`-` gives `(0, pageCount-1)` — the loop emits one entry per
sub-expression in input order, and the worked example
`parse("1, 2-, -3, 4-5, -", 10)` returns
`[{0,0},{1,9},{0,2},{3,4},{0,9}]`. -/
theorem C2_shapes_and_order :
    (∀ pc ds, ds ≠ [] → (∀ c ∈ ds, isDigit c = true) → valDigits ds ≤ sizeMax →
      1 ≤ valDigits ds → valDigits ds ≤ pc →
      processToken pc ds = .ok ⟨valDigits ds - 1, valDigits ds - 1⟩) ∧
    (∀ pc ds, ds ≠ [] → (∀ c ∈ ds, isDigit c = true) → valDigits ds ≤ sizeMax →
      1 ≤ valDigits ds → valDigits ds ≤ pc →
      processToken pc (ds ++ ['-']) = .ok ⟨valDigits ds - 1, pc - 1⟩) ∧
    (∀ pc ds, ds ≠ [] → (∀ c ∈ ds, isDigit c = true) → valDigits ds ≤ sizeMax →
      1 ≤ valDigits ds → valDigits ds ≤ pc →
      processToken pc ('-' :: ds) = .ok ⟨0, valDigits ds - 1⟩) ∧
    (∀ pc ds1 ds2, ds1 ≠ [] → (∀ c ∈ ds1, isDigit c = true) → ds2 ≠ [] →
      (∀ c ∈ ds2, isDigit c = true) → valDigits ds1 ≤ sizeMax →
      valDigits ds2 ≤ sizeMax → 1 ≤ valDigits ds1 →
      valDigits ds1 ≤ valDigits ds2 → valDigits ds2 ≤ pc →
      processToken pc (ds1 ++ '-' :: ds2) =
        .ok ⟨valDigits ds1 - 1, valDigits ds2 - 1⟩) ∧
    (∀ pc, 1 ≤ pc → processToken pc ['-'] = .ok ⟨0, pc - 1⟩) ∧
    (∀ pc ts es, parseTokens pc ts = .ok es →
      List.Forall₂ (fun t e => processToken pc t = .ok e) ts es) ∧
    PageRange.parse "1, 2-, -3, 4-5, -" 10 =
      .ok [⟨0, 0⟩, ⟨1, 9⟩, ⟨0, 2⟩, ⟨3, 4⟩, ⟨0, 9⟩] :=
  ⟨processToken_singlePage, processToken_rightOpen, processToken_leftOpen,
    processToken_pageRange, processToken_bothOpen,
    fun _ _ _ h => parseTokens_ok_forall h, rfl⟩

/-- Witness for C2: the five shape clauses applied at concrete tokens. -/
theorem C2_witness :
    processToken 10 ['7'] = .ok ⟨6, 6⟩ ∧
    processToken 10 ['7', '-'] = .ok ⟨6, 9⟩ ∧
    processToken 10 ['-', '7'] = .ok ⟨0, 6⟩ ∧
    processToken 10 ['4', '-', '5'] = .ok ⟨3, 4⟩ ∧
    processToken 10 ['-'] = .ok ⟨0, 9⟩ :=
  ⟨C2_shapes_and_order.1 10 ['7'] (by decide) (by decide) (by decide)
      (by decide) (by decide),
    C2_shapes_and_order.2.1 10 ['7'] (by decide) (by decide) (by decide)
      (by decide) (by decide),
    C2_shapes_and_order.2.2.1 10 ['7'] (by decide) (by decide) (by decide)
      (by decide) (by decide),
    C2_shapes_and_order.2.2.2.1 10 ['4'] ['5'] (by decide) (by decide)
      (by decide) (by decide) (by decide) (by decide) (by decide) (by decide)
      (by decide),
    C2_shapes_and_order.2.2.2.2.1 10 (by decide)⟩

/-- C3: an extracted raw entry with `first > pageCount` or
`last > pageCount` makes its loop iteration fail with OutOfRange, a
per-token error aborts the whole parse, and the bound is never clamped —
including on the doc comment's own truncation example `"0-42"`. -/
theorem C3_out_of_range_rejected :
    (∀ pc t e, recognizeEntry pc t = some e → (e.first > pc ∨ e.last > pc) →
      processToken pc t = .error .outOfRange) ∧
    (∀ pc err t ts, processToken pc t = .error err →
      parseTokens pc (t :: ts) = .error err) ∧
    PageRange.parse "0-42" 10 = .error .outOfRange := by
  refine ⟨?_, fun pc err t ts h => parseTokens_cons_error h, rfl⟩
  intro pc t e hrec hgt
  unfold processToken
  rw [hrec]
  show validateEntry pc e = .error .outOfRange
  unfold validateEntry
  rw [if_pos hgt]

/-- Witness for C3: the raw entry of token "11" at pageCount 10. -/
theorem C3_witness : processToken 10 ['1', '1'] = .error .outOfRange :=
  C3_out_of_range_rejected.1 10 ['1', '1'] ⟨11, 11⟩ rfl (by decide)

/-- C4: for every pageCount ≥ 1, the empty string yields a single empty
sub-expression matching none of the five shapes, so parse fails with
InvalidRange (no empty success). -/
theorem C4_empty_input (pc : Nat) (hpc : 1 ≤ pc) :
    PageRange.parse "" pc = .error .invalidRange := by
  unfold PageRange.parse
  rw [if_neg (by omega)]
  rfl

/-- Witness for C4 at pageCount 10. -/
theorem C4_witness : PageRange.parse "" 10 = .error .invalidRange :=
  C4_empty_input 10 (by omega)

/-- C5 counterexample: the recognizer accepts the left-open
sub-expression "-0" with raw entry `first = 1`, `last = 0` — so
`last = 0` occurs with `first ≠ 0`, and the zero bound fails as
InvalidOrder, not InvalidPageNumber. -/
theorem C5_counterexample :
    recognizeEntry 10 ("-0".data) = some ⟨1, 0⟩ ∧
    (PageRangeEntry.mk 1 0).last = 0 ∧ (PageRangeEntry.mk 1 0).first ≠ 0 ∧
    PageRange.parse "-0" 10 = .error .invalidOrder :=
  ⟨rfl, rfl, by decide, rfl⟩

/-- C5 (amended): a recognized raw entry can have `last = 0` with
`first ≠ 0` (left-open `-0`, or `n-0`); for such an entry whose `first`
is within the ceiling, the validator classifies the zero bound via the
ordering check first — InvalidPageNumber exactly when `first = 0`,
InvalidOrder when `first ≠ 0` — so `last = 0` forces `first = 0` only
among entries that pass the ordering check. -/
theorem C5_amended (pc : Nat) (t : List Char) (e : PageRangeEntry)
    (hrec : recognizeEntry pc t = some e) (hlast : e.last = 0)
    (hfc : e.first ≤ pc) :
    (e.first = 0 → validateEntry pc e = .error .invalidPageNumber) ∧
    (e.first ≠ 0 → validateEntry pc e = .error .invalidOrder) := by
  unfold validateEntry
  constructor
  · intro h0
    rw [if_neg (by omega), if_neg (by omega), if_pos h0]
  · intro h0
    rw [if_neg (by omega), if_pos (by omega)]

/-- Witness for C5 (amended) at the "-0" token. -/
theorem C5_witness : validateEntry 10 ⟨1, 0⟩ = .error .invalidOrder :=
  (C5_amended 10 ("-0".data) ⟨1, 0⟩ rfl rfl (by decide)).2 (by decide)

/-- C6: a zero pageCount fails with the distinct logic-error class
InvalidConfiguration for every input, and no input ever produces that
class when pageCount is nonzero (malformed input maps to the parse-error
classes only). -/
theorem C6_config_error_classification :
    (∀ s : String, PageRange.parse s 0 = .error .invalidConfiguration) ∧
    (∀ (s : String) (pc : Nat), pc ≠ 0 →
      PageRange.parse s pc ≠ .error .invalidConfiguration) := by
  constructor
  · intro s
    rfl
  · intro s pc hpc
    unfold PageRange.parse
    rw [if_neg hpc]
    exact parseTokens_ne_config pc (tokenize s.data)

/-- Witness for C6 at concrete inputs. -/
theorem C6_witness :
    PageRange.parse "whatever" 0 = .error .invalidConfiguration ∧
    PageRange.parse "?" 7 ≠ .error .invalidConfiguration :=
  ⟨C6_config_error_classification.1 "whatever",
    C6_config_error_classification.2 "?" 7 (by decide)⟩

/-- C7: the validator applies upper-bound, ordering and zero checks in
this order — a bound above pageCount gives OutOfRange regardless of the
other conditions (so `"11-2"` at pageCount 10 is OutOfRange, not
InvalidOrder), and an in-ceiling entry with `last < first` gives
InvalidOrder. -/
theorem C7_validation_order :
    (∀ pc e, (e.first > pc ∨ e.last > pc) →
      validateEntry pc e = .error .outOfRange) ∧
    (∀ pc e, e.first ≤ pc → e.last ≤ pc → e.last < e.first →
      validateEntry pc e = .error .invalidOrder) ∧
    PageRange.parse "11-2" 10 = .error .outOfRange := by
  refine ⟨?_, ?_, rfl⟩
  · intro pc e h
    unfold validateEntry
    rw [if_pos h]
  · intro pc e h1 h2 h3
    unfold validateEntry
    rw [if_neg (by omega), if_pos h3]

/-- Witness for C7: both validator clauses at concrete entries. -/
theorem C7_witness :
    validateEntry 10 ⟨11, 2⟩ = .error .outOfRange ∧
    validateEntry 10 ⟨5, 2⟩ = .error .invalidOrder :=
  ⟨C7_validation_order.1 10 ⟨11, 2⟩ (by decide),
    C7_validation_order.2.1 10 ⟨5, 2⟩ (by decide) (by decide) (by decide)⟩

/-- C8: a sub-expression matching none of the five shapes makes its loop
iteration fail with InvalidRange; in particular `"1-2-3"` (no partial or
greedy match) and `"abc"` fail with InvalidRange at pageCount 10. -/
theorem C8_unmatched_subexpression :
    (∀ pc t, recognizeEntry pc t = none →
      processToken pc t = .error .invalidRange) ∧
    PageRange.parse "1-2-3" 10 = .error .invalidRange ∧
    PageRange.parse "abc" 10 = .error .invalidRange := by
  refine ⟨?_, rfl, rfl⟩
  intro pc t h
  unfold processToken
  rw [h]

/-- Witness for C8 at the token "abc". -/
theorem C8_witness : processToken 10 ("abc".data) = .error .invalidRange :=
  C8_unmatched_subexpression.1 10 ("abc".data) rfl

/-- C9 (code bug, evaluated at the failing input): the all-digit token
"18446744073709551616" has decimal value 2^64, one past SIZE_MAX; the
recognizer matches it as a single page but the unchecked `from_chars`
leaves the destination at its prior value, so the extracted bound is the
default 0 — not the token's decimal value — and the parse reports
InvalidPageNumber instead of surfacing the out-of-range value. -/
theorem C9_overflow_silently_mapped :
    valDigits ("18446744073709551616".data) = 2 ^ 64 ∧
    sizeMax < 2 ^ 64 ∧
    recognizeEntry 10 ("18446744073709551616".data) = some ⟨0, 0⟩ ∧
    PageRange.parse "18446744073709551616" 10 = .error .invalidPageNumber :=
  ⟨by decide, by decide, rfl, rfl⟩

/-- C10: a trailing separator contributes no sub-expression
(`"1,"` succeeds with one entry), while an empty sub-expression from a
leading or doubled separator is recognized and rejected as InvalidRange. -/
theorem C10_tokenizer_edges :
    PageRange.parse "1," 10 = .ok [⟨0, 0⟩] ∧
    PageRange.parse ",1" 10 = .error .invalidRange ∧
    PageRange.parse "1,,2" 10 = .error .invalidRange :=
  ⟨rfl, rfl, rfl⟩
